import Mathlib

/-!
Verification of the km-command crate: a shallow embedding of its command
framing layer (postcard-based byte encoding of kernel-style commands), the
fixed-capacity path type, the bit-flag families, and the libc ABI record
views (`LibcDirent`, `LibcStat`), together with theorems settling the
specification's testable properties.

Bytes are modelled as natural numbers (values below 256 in all real runs);
byte buffers as `List Nat`.  Machine integers are `Nat`/`Int` with explicit
range hypotheses.  Fallible Rust code is embedded with an explicit result
type distinguishing a clean decode error (Rust `None`) from a panic.
-/

namespace KmCommand

/-- Result of a fallible decode step.  `ok` carries the decoded value and the
unconsumed remainder of the buffer; `err` models a postcard error (surfaced
as `None` by `from_bytes`); `panic` models a Rust panic (e.g. a failed
`unwrap`), which never returns to the caller. -/
inductive DeRes (α : Type) where
  | ok : α → List Nat → DeRes α
  | err : DeRes α
  | panic : DeRes α
deriving DecidableEq

/-- Sequencing of decode steps: errors and panics propagate. -/
def DeRes.bind {α β : Type} (r : DeRes α) (f : α → List Nat → DeRes β) : DeRes β :=
  match r with
  | .ok a rest => f a rest
  | .err => .err
  | .panic => .panic

/-- LEB128 unsigned varint encoding, as produced by postcard's
`try_push_varint_u32` / `try_push_varint_u64`: seven payload bits per byte,
least significant group first, high bit of a byte set iff more bytes follow. -/
def varintEncode (n : Nat) : List Nat :=
  if n < 128 then [n]
  else (n % 128 + 128) :: varintEncode (n / 128)
termination_by n
decreasing_by exact Nat.div_lt_self (by omega) (by omega)

/-- Postcard's `try_take_varint_u32` / `try_take_varint_u64` loop: reads up to
`maxBytes` bytes accumulating 7-bit groups into `out` (wrapping at `2 ^ width`
as the Rust `u32`/`u64` accumulator does); fails (`none`, a postcard error)
when the buffer ends early, when a continuation bit extends past `maxBytes`
bytes, or when the final allowed byte exceeds `lastMax`. -/
def tryTakeVarint (width maxBytes lastMax : Nat) : List Nat → Nat → Nat → Option (Nat × List Nat)
  | [], _, _ => none
  | b :: rest, i, out =>
    let out2 := (out ||| (b &&& 127) <<< (7 * i)) % 2 ^ width
    if b &&& 128 = 0 then
      if i = maxBytes - 1 ∧ lastMax < b then none else some (out2, rest)
    else if i + 1 < maxBytes then
      tryTakeVarint width maxBytes lastMax rest (i + 1) out2
    else none

/-- Postcard's zigzag transform of a signed 64-bit integer (`zig_zag_i64`):
a nonnegative `i` maps to `2 * i`, a negative `i` to `2 * (-i) - 1`. -/
def zigzag (i : Int) : Nat :=
  if 0 ≤ i then (2 * i).toNat else (2 * (-i)).toNat - 1

/-- Postcard's inverse zigzag transform (`de_zig_zag_i64`). -/
def dezigzag (n : Nat) : Int :=
  if n % 2 = 0 then ((n / 2 : Nat) : Int) else -((n / 2 : Nat) : Int) - 1

/-- Postcard serialization of a `u8`: the byte itself. -/
def serU8 (n : Nat) : List Nat := [n]

/-- Postcard serialization of a `u32`: unsigned varint. -/
def serU32 (n : Nat) : List Nat := varintEncode n

/-- Postcard serialization of a `u64`/`usize` (64-bit target): unsigned varint. -/
def serU64 (n : Nat) : List Nat := varintEncode n

/-- Postcard serialization of an `i64`/`isize` (64-bit target): zigzag then varint. -/
def serI64 (i : Int) : List Nat := varintEncode (zigzag i)

/-- Postcard deserialization of a `u8` (`try_take_u8`). -/
def deU8 : List Nat → DeRes Nat
  | [] => .err
  | b :: rest => .ok b rest

/-- Postcard deserialization of a `u32`: varint with at most 5 bytes, the
fifth byte at most `15` (the top 4 bits of a `u32`). -/
def deU32 (data : List Nat) : DeRes Nat :=
  match tryTakeVarint 32 5 15 data 0 0 with
  | some (n, rest) => .ok n rest
  | none => .err

/-- Postcard deserialization of a `u64`/`usize`: varint with at most 10 bytes,
the tenth byte at most `1` (the top bit of a `u64`). -/
def deU64 (data : List Nat) : DeRes Nat :=
  match tryTakeVarint 64 10 1 data 0 0 with
  | some (n, rest) => .ok n rest
  | none => .err

/-- Postcard deserialization of an `i64`/`isize`: varint then inverse zigzag. -/
def deI64 (data : List Nat) : DeRes Int :=
  DeRes.bind (deU64 data) (fun n rest => .ok (dezigzag n) rest)

/-- Continuation byte test for UTF-8 (`0x80..=0xBF`). -/
def utf8Cont (b : Nat) : Bool := 128 ≤ b && b ≤ 191

/-- UTF-8 validity of a byte sequence, exactly as checked by Rust's
`core::str::from_utf8` (well-formed UTF-8: no overlong forms, no surrogates,
code points at most `0x10FFFF`). -/
def utf8Valid : List Nat → Bool
  | [] => true
  | b :: rest =>
    if b ≤ 127 then utf8Valid rest
    else if 194 ≤ b && b ≤ 223 then
      match rest with
      | b1 :: r => utf8Cont b1 && utf8Valid r
      | [] => false
    else if b = 224 then
      match rest with
      | b1 :: b2 :: r => (160 ≤ b1 && b1 ≤ 191) && (utf8Cont b2 && utf8Valid r)
      | _ => false
    else if (225 ≤ b && b ≤ 236) || b = 238 || b = 239 then
      match rest with
      | b1 :: b2 :: r => utf8Cont b1 && (utf8Cont b2 && utf8Valid r)
      | _ => false
    else if b = 237 then
      match rest with
      | b1 :: b2 :: r => (128 ≤ b1 && b1 ≤ 159) && (utf8Cont b2 && utf8Valid r)
      | _ => false
    else if b = 240 then
      match rest with
      | b1 :: b2 :: b3 :: r => (144 ≤ b1 && b1 ≤ 191) && (utf8Cont b2 && (utf8Cont b3 && utf8Valid r))
      | _ => false
    else if 241 ≤ b && b ≤ 243 then
      match rest with
      | b1 :: b2 :: b3 :: r => utf8Cont b1 && (utf8Cont b2 && (utf8Cont b3 && utf8Valid r))
      | _ => false
    else if b = 244 then
      match rest with
      | b1 :: b2 :: b3 :: r => (128 ≤ b1 && b1 ≤ 143) && (utf8Cont b2 && (utf8Cont b3 && utf8Valid r))
      | _ => false
    else false

/-- Postcard serialization of a `&str` (`serialize_str`): varint byte length
followed by the UTF-8 bytes. -/
def serStr (s : List Nat) : List Nat := varintEncode s.length ++ s

/-- Postcard deserialization of a `&str` (`deserialize_str`): read a varint
length, fail if fewer bytes remain, take that many bytes and validate UTF-8
(`str::from_utf8`). -/
def deStr (data : List Nat) : DeRes (List Nat) :=
  DeRes.bind (deU64 data) (fun len rest =>
    if rest.length < len then .err
    else if utf8Valid (rest.take len) then .ok (rest.take len) (rest.drop len)
    else .err)

/-- Max file path length (`MAX_PATH_LEN` in `fs.rs`). -/
def MAX_PATH_LEN : Nat := 256

/-- Behaviour of `heapless::String::<CAP>::from_str`: stores the string
verbatim when its byte length is within capacity, otherwise fails with a
capacity error (no truncation). -/
def heaplessFromStr (cap : Nat) (s : List Nat) : Option (List Nat) :=
  if s.length ≤ cap then some s else none

/-- Serialization of `Path` (`Path::serialize`): serializes the inner string. -/
def serPath (p : List Nat) : List Nat := serStr p

/-- Deserialization of `Path` (`Path::deserialize`): deserializes a `&str`,
then `Path(String::from_str(s).unwrap())` — the `unwrap` panics when the
decoded string exceeds `MAX_PATH_LEN`. -/
def dePath (data : List Nat) : DeRes (List Nat) :=
  DeRes.bind (deStr data) (fun s rest =>
    match heaplessFromStr MAX_PATH_LEN s with
    | some p => .ok p rest
    | none => .panic)

/-- A path value: in the Rust source a `Path` wraps `heapless::String<256>`,
hence always holds valid UTF-8 of byte length at most `MAX_PATH_LEN`. -/
@[reducible] def ValidPath (p : List Nat) : Prop := utf8Valid p = true ∧ p.length ≤ MAX_PATH_LEN

/-- Range of `isize` on the 64-bit target. -/
@[reducible] def IsizeRange (i : Int) : Prop := -(2 : Int) ^ 63 ≤ i ∧ i < 2 ^ 63

/-- Range of `usize` on the 64-bit target. -/
@[reducible] def UsizeRange (n : Nat) : Prop := n < 2 ^ 64

/-- Bit-flags for the `Openat` command (`OpenFlags: u32`). -/
structure OpenFlags where
  bits : Nat
deriving DecidableEq

/-- Union of all named `OpenFlags` bits (`OpenFlags::all().bits()`):
RDONLY, WRONLY, RDWR, CREAT, APPEND, TRUNC, DIRECTORY. -/
def OpenFlags.allBits : Nat :=
  0o00000000 ||| 0o00000001 ||| 0o00000002 ||| 0o00000100 ||| 0o00000200 ||| 0o00000400 ||| 0o01000000

/-- Bitflags `OpenFlags::from_bits_truncate`: mask to known bits. -/
def OpenFlags.from_bits_truncate (n : Nat) : OpenFlags := ⟨n &&& OpenFlags.allBits⟩

/-- A flags value reachable through the bitflags API: only known bits set. -/
@[reducible] def OpenFlags.Known (f : OpenFlags) : Prop := f.bits &&& OpenFlags.allBits = f.bits

/-- `OpenFlags::serialize`: `serialize_u32(self.bits())`. -/
def OpenFlags.serialize (f : OpenFlags) : List Nat := serU32 f.bits

/-- `OpenFlags::deserialize`: `from_bits_truncate(u32::deserialize(..)?)`. -/
def OpenFlags.deserialize (data : List Nat) : DeRes OpenFlags :=
  DeRes.bind (deU32 data) (fun n rest => .ok (OpenFlags.from_bits_truncate n) rest)

/-- Bit-flags for file permission bits (`FileMode: u32`). -/
structure FileMode where
  bits : Nat
deriving DecidableEq

/-- Union of all named `FileMode` bits: the nine permission bits `0o777`. -/
def FileMode.allBits : Nat :=
  0o400 ||| 0o200 ||| 0o100 ||| 0o040 ||| 0o020 ||| 0o010 ||| 0o004 ||| 0o002 ||| 0o001

/-- Bitflags `FileMode::from_bits_truncate`: mask to known bits. -/
def FileMode.from_bits_truncate (n : Nat) : FileMode := ⟨n &&& FileMode.allBits⟩

/-- A flags value reachable through the bitflags API: only known bits set. -/
@[reducible] def FileMode.Known (f : FileMode) : Prop := f.bits &&& FileMode.allBits = f.bits

/-- `FileMode::serialize`: `serialize_u32(self.bits())`. -/
def FileMode.serialize (f : FileMode) : List Nat := serU32 f.bits

/-- `FileMode::deserialize`: `from_bits_truncate(u32::deserialize(..)?)`. -/
def FileMode.deserialize (data : List Nat) : DeRes FileMode :=
  DeRes.bind (deU32 data) (fun n rest => .ok (FileMode.from_bits_truncate n) rest)

/-- Bit-flags for the `Unlinkat` command (`UnlinkatFlags: u32`). -/
structure UnlinkatFlags where
  bits : Nat
deriving DecidableEq

/-- Union of all named `UnlinkatFlags` bits: `REMOVEDIR = 0x200`. -/
def UnlinkatFlags.allBits : Nat := 0x200

/-- Bitflags `UnlinkatFlags::from_bits_truncate`: mask to known bits. -/
def UnlinkatFlags.from_bits_truncate (n : Nat) : UnlinkatFlags := ⟨n &&& UnlinkatFlags.allBits⟩

/-- A flags value reachable through the bitflags API: only known bits set. -/
@[reducible] def UnlinkatFlags.Known (f : UnlinkatFlags) : Prop := f.bits &&& UnlinkatFlags.allBits = f.bits

/-- `UnlinkatFlags::serialize`: `serialize_u32(self.bits())`. -/
def UnlinkatFlags.serialize (f : UnlinkatFlags) : List Nat := serU32 f.bits

/-- `UnlinkatFlags::deserialize`: `from_bits_truncate(u32::deserialize(..)?)`. -/
def UnlinkatFlags.deserialize (data : List Nat) : DeRes UnlinkatFlags :=
  DeRes.bind (deU32 data) (fun n rest => .ok (UnlinkatFlags.from_bits_truncate n) rest)

/-- Bit-flags for memory protection (`ProtFlags: u8`). -/
structure ProtFlags where
  bits : Nat
deriving DecidableEq

/-- Union of all named `ProtFlags` bits: READ, WRITE, EXECUTE. -/
def ProtFlags.allBits : Nat := 1 <<< 0 ||| 1 <<< 1 ||| 1 <<< 2

/-- Bitflags `ProtFlags::from_bits_truncate`: mask to known bits. -/
def ProtFlags.from_bits_truncate (n : Nat) : ProtFlags := ⟨n &&& ProtFlags.allBits⟩

/-- A flags value reachable through the bitflags API: only known bits set. -/
@[reducible] def ProtFlags.Known (f : ProtFlags) : Prop := f.bits &&& ProtFlags.allBits = f.bits

/-- `ProtFlags::serialize`: `serialize_u8(self.bits())`. -/
def ProtFlags.serialize (f : ProtFlags) : List Nat := serU8 f.bits

/-- `ProtFlags::deserialize`: `from_bits_truncate(u8::deserialize(..)?)`. -/
def ProtFlags.deserialize (data : List Nat) : DeRes ProtFlags :=
  DeRes.bind (deU8 data) (fun n rest => .ok (ProtFlags.from_bits_truncate n) rest)

/-- Bit-flags for memory mapping (`MmapFlags: u32`). -/
structure MmapFlags where
  bits : Nat
deriving DecidableEq

/-- Union of all named `MmapFlags` bits: MAP_SHARED, MAP_PRIVATE, MAP_FIXED. -/
def MmapFlags.allBits : Nat := 1 <<< 0 ||| 1 <<< 1 ||| 1 <<< 4

/-- Bitflags `MmapFlags::from_bits_truncate`: mask to known bits. -/
def MmapFlags.from_bits_truncate (n : Nat) : MmapFlags := ⟨n &&& MmapFlags.allBits⟩

/-- A flags value reachable through the bitflags API: only known bits set. -/
@[reducible] def MmapFlags.Known (f : MmapFlags) : Prop := f.bits &&& MmapFlags.allBits = f.bits

/-- `MmapFlags::serialize`: `serialize_u32(self.bits())`. -/
def MmapFlags.serialize (f : MmapFlags) : List Nat := serU32 f.bits

/-- `MmapFlags::deserialize`: `from_bits_truncate(u32::deserialize(..)?)`. -/
def MmapFlags.deserialize (data : List Nat) : DeRes MmapFlags :=
  DeRes.bind (deU32 data) (fun n rest => .ok (MmapFlags.from_bits_truncate n) rest)

/-- The `Openat` command: open and possibly create a file. -/
structure Openat where
  dirfd : Int
  path : List Nat
  flags : OpenFlags
  mode : FileMode
deriving DecidableEq

/-- Command id of `Openat`. -/
def Openat.ID : Nat := 56

/-- Fields of `Openat` are within their Rust types' domains. -/
@[reducible] def Openat.Valid (c : Openat) : Prop :=
  IsizeRange c.dirfd ∧ ValidPath c.path ∧ OpenFlags.Known c.flags ∧ FileMode.Known c.mode

/-- `Openat::to_bytes`: postcard serialization of the fields in order. -/
def Openat.to_bytes (c : Openat) : List Nat :=
  serI64 c.dirfd ++ serPath c.path ++ OpenFlags.serialize c.flags ++ FileMode.serialize c.mode

/-- `Openat::from_bytes`: postcard `take_from_bytes`, fields in order. -/
def Openat.from_bytes (data : List Nat) : DeRes Openat :=
  DeRes.bind (deI64 data) (fun dirfd r1 =>
    DeRes.bind (dePath r1) (fun path r2 =>
      DeRes.bind (OpenFlags.deserialize r2) (fun flags r3 =>
        DeRes.bind (FileMode.deserialize r3) (fun mode r4 =>
          .ok ⟨dirfd, path, flags, mode⟩ r4))))

/-- The `Close` command: close a file descriptor. -/
structure Close where
  fd : Int
deriving DecidableEq

/-- Command id of `Close`. -/
def Close.ID : Nat := 57

/-- Fields of `Close` are within their Rust types' domains. -/
@[reducible] def Close.Valid (c : Close) : Prop := IsizeRange c.fd

/-- `Close::to_bytes`. -/
def Close.to_bytes (c : Close) : List Nat := serI64 c.fd

/-- `Close::from_bytes`. -/
def Close.from_bytes (data : List Nat) : DeRes Close :=
  DeRes.bind (deI64 data) (fun fd r1 => .ok ⟨fd⟩ r1)

/-- The `Fstat` command: get file status. -/
structure Fstat where
  fd : Int
deriving DecidableEq

/-- Command id of `Fstat`. -/
def Fstat.ID : Nat := 80

/-- Fields of `Fstat` are within their Rust types' domains. -/
@[reducible] def Fstat.Valid (c : Fstat) : Prop := IsizeRange c.fd

/-- `Fstat::to_bytes`. -/
def Fstat.to_bytes (c : Fstat) : List Nat := serI64 c.fd

/-- `Fstat::from_bytes`. -/
def Fstat.from_bytes (data : List Nat) : DeRes Fstat :=
  DeRes.bind (deI64 data) (fun fd r1 => .ok ⟨fd⟩ r1)

/-- The `Getdents` command: get directory entries. -/
structure Getdents where
  fd : Int
  count : Nat
deriving DecidableEq

/-- Command id of `Getdents`. -/
def Getdents.ID : Nat := 61

/-- Fields of `Getdents` are within their Rust types' domains. -/
@[reducible] def Getdents.Valid (c : Getdents) : Prop := IsizeRange c.fd ∧ UsizeRange c.count

/-- `Getdents::to_bytes`. -/
def Getdents.to_bytes (c : Getdents) : List Nat := serI64 c.fd ++ serU64 c.count

/-- `Getdents::from_bytes`. -/
def Getdents.from_bytes (data : List Nat) : DeRes Getdents :=
  DeRes.bind (deI64 data) (fun fd r1 =>
    DeRes.bind (deU64 r1) (fun count r2 => .ok ⟨fd, count⟩ r2))

/-- The `Linkat` command: make a new name for a file. -/
structure Linkat where
  olddirfd : Int
  oldpath : List Nat
  newdirfd : Int
  newpath : List Nat
deriving DecidableEq

/-- Command id of `Linkat`. -/
def Linkat.ID : Nat := 37

/-- Fields of `Linkat` are within their Rust types' domains. -/
@[reducible] def Linkat.Valid (c : Linkat) : Prop :=
  IsizeRange c.olddirfd ∧ ValidPath c.oldpath ∧ IsizeRange c.newdirfd ∧ ValidPath c.newpath

/-- `Linkat::to_bytes`. -/
def Linkat.to_bytes (c : Linkat) : List Nat :=
  serI64 c.olddirfd ++ serPath c.oldpath ++ serI64 c.newdirfd ++ serPath c.newpath

/-- `Linkat::from_bytes`. -/
def Linkat.from_bytes (data : List Nat) : DeRes Linkat :=
  DeRes.bind (deI64 data) (fun olddirfd r1 =>
    DeRes.bind (dePath r1) (fun oldpath r2 =>
      DeRes.bind (deI64 r2) (fun newdirfd r3 =>
        DeRes.bind (dePath r3) (fun newpath r4 =>
          .ok ⟨olddirfd, oldpath, newdirfd, newpath⟩ r4))))

/-- The `Unlinkat` command: delete a name. -/
structure Unlinkat where
  dirfd : Int
  path : List Nat
  flags : UnlinkatFlags
deriving DecidableEq

/-- Command id of `Unlinkat`. -/
def Unlinkat.ID : Nat := 35

/-- Fields of `Unlinkat` are within their Rust types' domains. -/
@[reducible] def Unlinkat.Valid (c : Unlinkat) : Prop :=
  IsizeRange c.dirfd ∧ ValidPath c.path ∧ UnlinkatFlags.Known c.flags

/-- `Unlinkat::to_bytes`. -/
def Unlinkat.to_bytes (c : Unlinkat) : List Nat :=
  serI64 c.dirfd ++ serPath c.path ++ UnlinkatFlags.serialize c.flags

/-- `Unlinkat::from_bytes`. -/
def Unlinkat.from_bytes (data : List Nat) : DeRes Unlinkat :=
  DeRes.bind (deI64 data) (fun dirfd r1 =>
    DeRes.bind (dePath r1) (fun path r2 =>
      DeRes.bind (UnlinkatFlags.deserialize r2) (fun flags r3 =>
        .ok ⟨dirfd, path, flags⟩ r3)))

/-- The `Mkdirat` command: create a directory. -/
structure Mkdirat where
  dirfd : Int
  path : List Nat
  mode : FileMode
deriving DecidableEq

/-- Command id of `Mkdirat`. -/
def Mkdirat.ID : Nat := 34

/-- Fields of `Mkdirat` are within their Rust types' domains. -/
@[reducible] def Mkdirat.Valid (c : Mkdirat) : Prop :=
  IsizeRange c.dirfd ∧ ValidPath c.path ∧ FileMode.Known c.mode

/-- `Mkdirat::to_bytes`. -/
def Mkdirat.to_bytes (c : Mkdirat) : List Nat :=
  serI64 c.dirfd ++ serPath c.path ++ FileMode.serialize c.mode

/-- `Mkdirat::from_bytes`. -/
def Mkdirat.from_bytes (data : List Nat) : DeRes Mkdirat :=
  DeRes.bind (deI64 data) (fun dirfd r1 =>
    DeRes.bind (dePath r1) (fun path r2 =>
      DeRes.bind (FileMode.deserialize r2) (fun mode r3 =>
        .ok ⟨dirfd, path, mode⟩ r3)))

/-- The `Getcwd` command: get current working directory (no fields). -/
structure Getcwd where
deriving DecidableEq

/-- Command id of `Getcwd`. -/
def Getcwd.ID : Nat := 17

/-- Fields of `Getcwd` are within their Rust types' domains (trivially). -/
@[reducible] def Getcwd.Valid (_ : Getcwd) : Prop := True

/-- `Getcwd::to_bytes`: an empty struct serializes to no bytes. -/
def Getcwd.to_bytes (_ : Getcwd) : List Nat := []

/-- `Getcwd::from_bytes`: an empty struct consumes no bytes. -/
def Getcwd.from_bytes (data : List Nat) : DeRes Getcwd := .ok ⟨⟩ data

/-- The `Dup` command: duplicate a file descriptor. -/
structure Dup where
  oldfd : Int
deriving DecidableEq

/-- Command id of `Dup`. -/
def Dup.ID : Nat := 23

/-- Fields of `Dup` are within their Rust types' domains. -/
@[reducible] def Dup.Valid (c : Dup) : Prop := IsizeRange c.oldfd

/-- `Dup::to_bytes`. -/
def Dup.to_bytes (c : Dup) : List Nat := serI64 c.oldfd

/-- `Dup::from_bytes`. -/
def Dup.from_bytes (data : List Nat) : DeRes Dup :=
  DeRes.bind (deI64 data) (fun oldfd r1 => .ok ⟨oldfd⟩ r1)

/-- The `Chdir` command: change the current working directory. -/
structure Chdir where
  path : List Nat
deriving DecidableEq

/-- Command id of `Chdir`. -/
def Chdir.ID : Nat := 49

/-- Fields of `Chdir` are within their Rust types' domains. -/
@[reducible] def Chdir.Valid (c : Chdir) : Prop := ValidPath c.path

/-- `Chdir::to_bytes`. -/
def Chdir.to_bytes (c : Chdir) : List Nat := serPath c.path

/-- `Chdir::from_bytes`. -/
def Chdir.from_bytes (data : List Nat) : DeRes Chdir :=
  DeRes.bind (dePath data) (fun path r1 => .ok ⟨path⟩ r1)

/-- The `Brk` command: set the program break. -/
structure Brk where
  addr : Nat
deriving DecidableEq

/-- Command id of `Brk`. -/
def Brk.ID : Nat := 214

/-- Fields of `Brk` are within their Rust types' domains. -/
@[reducible] def Brk.Valid (c : Brk) : Prop := UsizeRange c.addr

/-- `Brk::to_bytes`. -/
def Brk.to_bytes (c : Brk) : List Nat := serU64 c.addr

/-- `Brk::from_bytes`. -/
def Brk.from_bytes (data : List Nat) : DeRes Brk :=
  DeRes.bind (deU64 data) (fun addr r1 => .ok ⟨addr⟩ r1)

/-- The `Sbrk` command: adjust the program break by an increment. -/
structure Sbrk where
  increment : Int
deriving DecidableEq

/-- Command id of `Sbrk` (shared with `Brk`). -/
def Sbrk.ID : Nat := 214

/-- Fields of `Sbrk` are within their Rust types' domains. -/
@[reducible] def Sbrk.Valid (c : Sbrk) : Prop := IsizeRange c.increment

/-- `Sbrk::to_bytes`. -/
def Sbrk.to_bytes (c : Sbrk) : List Nat := serI64 c.increment

/-- `Sbrk::from_bytes`. -/
def Sbrk.from_bytes (data : List Nat) : DeRes Sbrk :=
  DeRes.bind (deI64 data) (fun increment r1 => .ok ⟨increment⟩ r1)

/-- The `Mmap` command: create a memory mapping. -/
structure Mmap where
  addr : Nat
  len : Nat
  prot : ProtFlags
  flags : MmapFlags
deriving DecidableEq

/-- Command id of `Mmap`. -/
def Mmap.ID : Nat := 222

/-- Fields of `Mmap` are within their Rust types' domains. -/
@[reducible] def Mmap.Valid (c : Mmap) : Prop :=
  UsizeRange c.addr ∧ UsizeRange c.len ∧ ProtFlags.Known c.prot ∧ MmapFlags.Known c.flags

/-- `Mmap::to_bytes`. -/
def Mmap.to_bytes (c : Mmap) : List Nat :=
  serU64 c.addr ++ serU64 c.len ++ ProtFlags.serialize c.prot ++ MmapFlags.serialize c.flags

/-- `Mmap::from_bytes`. -/
def Mmap.from_bytes (data : List Nat) : DeRes Mmap :=
  DeRes.bind (deU64 data) (fun addr r1 =>
    DeRes.bind (deU64 r1) (fun len r2 =>
      DeRes.bind (ProtFlags.deserialize r2) (fun prot r3 =>
        DeRes.bind (MmapFlags.deserialize r3) (fun flags r4 =>
          .ok ⟨addr, len, prot, flags⟩ r4))))

/-- The `Munmap` command: remove a memory mapping. -/
structure Munmap where
  addr : Nat
  len : Nat
deriving DecidableEq

/-- Command id of `Munmap`. -/
def Munmap.ID : Nat := 215

/-- Fields of `Munmap` are within their Rust types' domains. -/
@[reducible] def Munmap.Valid (c : Munmap) : Prop := UsizeRange c.addr ∧ UsizeRange c.len

/-- `Munmap::to_bytes`. -/
def Munmap.to_bytes (c : Munmap) : List Nat := serU64 c.addr ++ serU64 c.len

/-- `Munmap::from_bytes`. -/
def Munmap.from_bytes (data : List Nat) : DeRes Munmap :=
  DeRes.bind (deU64 data) (fun addr r1 =>
    DeRes.bind (deU64 r1) (fun len r2 => .ok ⟨addr, len⟩ r2))

/-- The `Mprotect` command: change memory protection. -/
structure Mprotect where
  start : Nat
  len : Nat
  flags : ProtFlags
deriving DecidableEq

/-- Command id of `Mprotect`. -/
def Mprotect.ID : Nat := 5

/-- Fields of `Mprotect` are within their Rust types' domains. -/
@[reducible] def Mprotect.Valid (c : Mprotect) : Prop :=
  UsizeRange c.start ∧ UsizeRange c.len ∧ ProtFlags.Known c.flags

/-- `Mprotect::to_bytes`. -/
def Mprotect.to_bytes (c : Mprotect) : List Nat :=
  serU64 c.start ++ serU64 c.len ++ ProtFlags.serialize c.flags

/-- `Mprotect::from_bytes`. -/
def Mprotect.from_bytes (data : List Nat) : DeRes Mprotect :=
  DeRes.bind (deU64 data) (fun start r1 =>
    DeRes.bind (deU64 r1) (fun len r2 =>
      DeRes.bind (ProtFlags.deserialize r2) (fun flags r3 =>
        .ok ⟨start, len, flags⟩ r3)))

/-- File kind classification (`FileKind` in `fs.rs`). -/
inductive FileKind where
  | Unknown
  | Fifo
  | CharDevice
  | Directory
  | BlockDevice
  | File
  | Symlink
  | Sockect
deriving DecidableEq

/-- The libc directory entry (`LibcDirent`): inode, offset to next entry,
record length (`u16`), one-byte type tag, and a 256-byte inline name buffer. -/
structure LibcDirent where
  ino : Nat
  off : Nat
  reclen : Nat
  type_ : Nat
  name : List Nat
deriving DecidableEq

/-- `LibcDirent::MIN_SIZE`: fixed header size —
`size_of::<usize>() * 2 + size_of::<u16>() + size_of::<u8>()` = 19. -/
def LibcDirent.MIN_SIZE : Nat := 8 * 2 + 2 + 1

/-- `LibcDirent::MAX_SIZE`: header plus full 256-byte name capacity. -/
def LibcDirent.MAX_SIZE : Nat := LibcDirent.MIN_SIZE + 256

/-- `LibcDirent::ONE_DIRENT_BUF_SIZE`: defined in the source as `MIN_SIZE * 2`. -/
def LibcDirent.ONE_DIRENT_BUF_SIZE : Nat := LibcDirent.MIN_SIZE * 2

/-- `LibcDirent::kind`: map the one-byte type tag to a `FileKind` by the fixed
table; any other tag yields `Unknown`. -/
def LibcDirent.kind (d : LibcDirent) : FileKind :=
  match d.type_ with
  | 1 => .Fifo
  | 2 => .CharDevice
  | 4 => .Directory
  | 6 => .BlockDevice
  | 8 => .File
  | 10 => .Symlink
  | 12 => .Sockect
  | _ => .Unknown

/-- `LibcDirent::name`: the slice `&self.name[..self.reclen as usize - MIN_SIZE]`.
The subtraction underflows when `reclen < MIN_SIZE` and the slice exceeds the
256-byte buffer when `reclen - MIN_SIZE > 256`; both are Rust panics, embedded
as `none`. -/
def LibcDirent.nameBytes (d : LibcDirent) : Option (List Nat) :=
  if LibcDirent.MIN_SIZE ≤ d.reclen ∧ d.reclen - LibcDirent.MIN_SIZE ≤ 256 then
    some (d.name.take (d.reclen - LibcDirent.MIN_SIZE))
  else none

/-- The libc stat record (`LibcStat`), fields in declaration order; the two
padding fields carry no meaning. -/
structure LibcStat where
  dev : Nat
  ino : Nat
  mode : Nat
  nlink : Nat
  uid : Nat
  gid : Nat
  rdev : Nat
  pad1 : Nat
  size : Nat
  blksize : Nat
  pad2 : Nat
  blocks : Nat
  atime_sec : Nat
  atime_nsec : Nat
  mtime_sec : Nat
  mtime_nsec : Nat
  ctime_sec : Nat
  ctime_nsec : Nat
deriving DecidableEq

/-- `LibcStat::mode`: permission bits of the file (`from_bits_truncate`). -/
def LibcStat.modeBits (s : LibcStat) : FileMode := FileMode.from_bits_truncate s.mode

/-- `LibcStat::kind`: mask the mode with `0o170000` and match the seven known
type-bit patterns; anything else yields `Unknown`. -/
def LibcStat.kind (s : LibcStat) : FileKind :=
  match s.mode &&& 0o170000 with
  | 0o010000 => .Fifo
  | 0o020000 => .CharDevice
  | 0o040000 => .Directory
  | 0o060000 => .BlockDevice
  | 0o100000 => .File
  | 0o120000 => .Symlink
  | 0o140000 => .Sockect
  | _ => .Unknown

/-- `id_to_bytes`: `usize::to_le_bytes` — eight bytes, least significant first. -/
def id_to_bytes (id : Nat) : List Nat :=
  (List.range 8).map (fun i => id / 2 ^ (8 * i) % 256)

/-- `id_from_bytes`: read the first eight bytes as a little-endian `usize` and
return it with the remaining slice; slicing `data[..8]` panics (`none`) when
fewer than eight bytes are present. -/
def id_from_bytes (data : List Nat) : Option (Nat × List Nat) :=
  if data.length < 8 then none
  else some ((data.take 8).foldr (fun b acc => b + 256 * acc) 0, data.drop 8)

lemma varintEncode_lt {n : Nat} (h : n < 128) : varintEncode n = [n] := by
  rw [varintEncode]
  simp [h]

lemma varintEncode_ge {n : Nat} (h : 128 ≤ n) :
    varintEncode n = (n % 128 + 128) :: varintEncode (n / 128) := by
  rw [varintEncode]
  simp [Nat.not_lt.mpr h]

lemma lor_shiftLeft_eq_add (a b k : Nat) (h : a < 2 ^ k) :
    a ||| b <<< k = a + b * 2 ^ k := by
  rw [Nat.lor_comm, Nat.shiftLeft_eq, Nat.mul_comm b (2 ^ k), ← Nat.mul_add_lt_is_or h]
  omega

lemma and_127_of_lt {n : Nat} (h : n < 128) : n &&& 127 = n := by
  rw [show (127 : Nat) = 2 ^ 7 - 1 from rfl]
  exact Nat.and_pow_two_sub_one_of_lt_two_pow h

lemma and_128_eq_zero {n : Nat} (h : n < 128) : n &&& 128 = 0 := by
  apply Nat.eq_of_testBit_eq
  intro j
  simp only [Nat.testBit_and, Nat.zero_testBit]
  rcases Nat.lt_or_ge j 7 with hj | hj
  · have : (128 : Nat).testBit j = false := by
      interval_cases j <;> decide
    simp [this]
  · have h8 : (128 : Nat) ≤ 2 ^ j := by
      calc (128 : Nat) = 2 ^ 7 := rfl
        _ ≤ 2 ^ j := Nat.pow_le_pow_right (by norm_num) hj
    have : n.testBit j = false := Nat.testBit_lt_two_pow (lt_of_lt_of_le h h8)
    simp [this]

lemma cont_and_127 (a : Nat) (h : a < 128) : (a + 128) &&& 127 = a := by
  rw [show (127 : Nat) = 2 ^ 7 - 1 from rfl, Nat.and_pow_two_sub_one_eq_mod]
  omega

lemma cont_and_128 (a : Nat) (h : a < 128) : (a + 128) &&& 128 ≠ 0 := by
  have h1 : (a + 128).testBit 7 = true := by
    simp only [Nat.testBit_to_div_mod, decide_eq_true_eq]
    omega
  intro hz
  have := congrArg (fun x => x.testBit 7) hz
  simp only [Nat.testBit_and, Nat.zero_testBit, h1] at this
  have h2 : (128 : Nat).testBit 7 = true := by decide
  simp [h2] at this
lemma tryTakeVarint_encode {w maxB lastM : Nat}
    (hw7 : 7 * (maxB - 1) < w) (hwle : w ≤ 7 * maxB)
    (hlast : 2 ^ (w - 7 * (maxB - 1)) ≤ lastM + 1) :
    ∀ n i out rest, n < 2 ^ (w - 7 * i) → i < maxB → out < 2 ^ (7 * i) →
      tryTakeVarint w maxB lastM (varintEncode n ++ rest) i out
        = some (out + n * 2 ^ (7 * i), rest) := by
  intro n
  induction n using Nat.strong_induction_on with
  | _ n ih =>
    intro i out rest hn hi hout
    have h7i : 7 * i ≤ 7 * (maxB - 1) := by omega
    have h7iw : 7 * i < w := lt_of_le_of_lt h7i hw7
    have hpow : 2 ^ (7 * i) * 2 ^ (w - 7 * i) = 2 ^ w := by
      rw [← pow_add]
      congr 1
      omega
    have hsum : out + n * 2 ^ (7 * i) < 2 ^ w := by
      have h2 : (n + 1) * 2 ^ (7 * i) ≤ 2 ^ (w - 7 * i) * 2 ^ (7 * i) :=
        Nat.mul_le_mul_right _ hn
      rw [Nat.mul_comm (2 ^ (w - 7 * i)), hpow] at h2
      have h3 : (n + 1) * 2 ^ (7 * i) = n * 2 ^ (7 * i) + 2 ^ (7 * i) := by ring
      omega
    by_cases h128 : n < 128
    · rw [varintEncode_lt h128]
      show tryTakeVarint w maxB lastM (n :: rest) i out = _
      rw [tryTakeVarint]
      simp only [and_127_of_lt h128, and_128_eq_zero h128, if_true, reduceIte]
      rw [lor_shiftLeft_eq_add out n (7 * i) hout]
      rw [Nat.mod_eq_of_lt hsum]
      have hcond : ¬(i = maxB - 1 ∧ lastM < n) := by
        rintro ⟨heq, hlt⟩
        subst heq
        omega
      rw [if_neg hcond]
    · have hge : 128 ≤ n := by omega
      rw [varintEncode_ge hge]
      show tryTakeVarint w maxB lastM ((n % 128 + 128) :: (varintEncode (n / 128) ++ rest)) i out = _
      rw [tryTakeVarint]
      have hm : n % 128 < 128 := Nat.mod_lt _ (by omega)
      simp only [cont_and_127 (n % 128) hm, if_neg (cont_and_128 (n % 128) hm)]
      have hiw : 7 * i + 7 < w := by
        have : (128 : Nat) ≤ 2 ^ (w - 7 * i) := le_trans hge (le_of_lt hn)
        by_contra hc
        push_neg at hc
        have : (2 : Nat) ^ (w - 7 * i) ≤ 2 ^ 7 := Nat.pow_le_pow_right (by norm_num) (by omega)
        omega
      have hi1 : i + 1 < maxB := by omega
      rw [if_pos hi1]
      rw [lor_shiftLeft_eq_add out (n % 128) (7 * i) hout]
      have hout2 : out + n % 128 * 2 ^ (7 * i) < 2 ^ (7 * (i + 1)) := by
        have e : (2 : Nat) ^ (7 * (i + 1)) = 2 ^ (7 * i) * 128 := by
          rw [show 7 * (i + 1) = 7 * i + 7 by omega, pow_add]
          norm_num
        have : n % 128 * 2 ^ (7 * i) ≤ 127 * 2 ^ (7 * i) := Nat.mul_le_mul_right _ (by omega)
        omega
      have hlt2w : out + n % 128 * 2 ^ (7 * i) < 2 ^ w := by
        have : (2 : Nat) ^ (7 * (i + 1)) ≤ 2 ^ w := Nat.pow_le_pow_right (by norm_num) (by omega)
        omega
      rw [Nat.mod_eq_of_lt hlt2w]
      have hdiv : n / 128 < 2 ^ (w - 7 * (i + 1)) := by
        rw [Nat.div_lt_iff_lt_mul (by norm_num : (0:Nat) < 128)]
        have e : (2 : Nat) ^ (w - 7 * (i + 1)) * 128 = 2 ^ (w - 7 * i) := by
          rw [show (128 : Nat) = 2 ^ 7 from rfl, ← pow_add]
          congr 1
          omega
        omega
      rw [ih (n / 128) (Nat.div_lt_self (by omega) (by omega)) (i + 1)
        (out + n % 128 * 2 ^ (7 * i)) rest hdiv hi1 hout2]
      congr 2
      have e : (2 : Nat) ^ (7 * (i + 1)) = 2 ^ (7 * i) * 128 := by
        rw [show 7 * (i + 1) = 7 * i + 7 by omega, pow_add]
        norm_num
      rw [e]
      have hdm : 128 * (n / 128) + n % 128 = n := Nat.div_add_mod n 128
      calc out + n % 128 * 2 ^ (7 * i) + n / 128 * (2 ^ (7 * i) * 128)
          = out + (n % 128 + 128 * (n / 128)) * 2 ^ (7 * i) := by ring
        _ = out + n * 2 ^ (7 * i) := by rw [show n % 128 + 128 * (n / 128) = n by omega]

lemma deU64_ser {n : Nat} (h : n < 2 ^ 64) (rest : List Nat) :
    deU64 (serU64 n ++ rest) = .ok n rest := by
  unfold deU64 serU64
  rw [tryTakeVarint_encode (by norm_num) (by norm_num) (by norm_num) n 0 0 rest
    (by simpa using h) (by norm_num) (by norm_num)]
  simp

lemma deU32_ser {n : Nat} (h : n < 2 ^ 32) (rest : List Nat) :
    deU32 (serU32 n ++ rest) = .ok n rest := by
  unfold deU32 serU32
  rw [tryTakeVarint_encode (by norm_num) (by norm_num) (by norm_num) n 0 0 rest
    (by simpa using h) (by norm_num) (by norm_num)]
  simp

lemma zigzag_lt {i : Int} (h : IsizeRange i) : zigzag i < 2 ^ 64 := by
  unfold IsizeRange at h
  unfold zigzag
  split <;> omega

lemma dezigzag_zigzag (i : Int) : dezigzag (zigzag i) = i := by
  rcases le_or_lt 0 i with h | h
  · have hz : zigzag i = (2 * i).toNat := by
      unfold zigzag
      rw [if_pos h]
    rw [hz]
    unfold dezigzag
    rw [if_pos (by omega)]
    omega
  · have hz : zigzag i = (2 * (-i)).toNat - 1 := by
      unfold zigzag
      rw [if_neg (by omega)]
    rw [hz]
    unfold dezigzag
    rw [if_neg (by omega)]
    omega

lemma deI64_ser {i : Int} (h : IsizeRange i) (rest : List Nat) :
    deI64 (serI64 i ++ rest) = .ok i rest := by
  unfold deI64 serI64
  rw [show varintEncode (zigzag i) = serU64 (zigzag i) from rfl,
    deU64_ser (zigzag_lt h)]
  simp [DeRes.bind, dezigzag_zigzag]

lemma deStr_ser {s : List Nat} (hu : utf8Valid s = true) (hl : s.length ≤ MAX_PATH_LEN)
    (rest : List Nat) : deStr (serStr s ++ rest) = .ok s rest := by
  unfold deStr serStr
  rw [List.append_assoc,
    show varintEncode s.length = serU64 s.length from rfl,
    deU64_ser (by unfold MAX_PATH_LEN at hl; omega)]
  simp only [DeRes.bind]
  rw [if_neg (by simp), List.take_left, List.drop_left, hu]
  simp

lemma dePath_ser {s : List Nat} (hu : utf8Valid s = true) (hl : s.length ≤ MAX_PATH_LEN)
    (rest : List Nat) : dePath (serPath s ++ rest) = .ok s rest := by
  unfold dePath serPath
  rw [deStr_ser hu hl]
  simp [DeRes.bind, heaplessFromStr, hl]
lemma deU8_ser (b : Nat) (rest : List Nat) : deU8 (serU8 b ++ rest) = .ok b rest := rfl

lemma deSerOpenFlags {f : OpenFlags} (h : OpenFlags.Known f) (rest : List Nat) :
    OpenFlags.deserialize (OpenFlags.serialize f ++ rest) = .ok f rest := by
  have hle : f.bits ≤ OpenFlags.allBits := by
    rw [← h]
    exact Nat.and_le_right
  have hlt : f.bits < 2 ^ 32 := lt_of_le_of_lt hle (by decide)
  unfold OpenFlags.deserialize OpenFlags.serialize
  rw [deU32_ser hlt]
  simp only [DeRes.bind]
  unfold OpenFlags.from_bits_truncate OpenFlags.Known at *
  rw [h]

lemma deSerFileMode {f : FileMode} (h : FileMode.Known f) (rest : List Nat) :
    FileMode.deserialize (FileMode.serialize f ++ rest) = .ok f rest := by
  have hle : f.bits ≤ FileMode.allBits := by
    rw [← h]
    exact Nat.and_le_right
  have hlt : f.bits < 2 ^ 32 := lt_of_le_of_lt hle (by decide)
  unfold FileMode.deserialize FileMode.serialize
  rw [deU32_ser hlt]
  simp only [DeRes.bind]
  unfold FileMode.from_bits_truncate FileMode.Known at *
  rw [h]

lemma deSerUnlinkatFlags {f : UnlinkatFlags} (h : UnlinkatFlags.Known f) (rest : List Nat) :
    UnlinkatFlags.deserialize (UnlinkatFlags.serialize f ++ rest) = .ok f rest := by
  have hle : f.bits ≤ UnlinkatFlags.allBits := by
    rw [← h]
    exact Nat.and_le_right
  have hlt : f.bits < 2 ^ 32 := lt_of_le_of_lt hle (by decide)
  unfold UnlinkatFlags.deserialize UnlinkatFlags.serialize
  rw [deU32_ser hlt]
  simp only [DeRes.bind]
  unfold UnlinkatFlags.from_bits_truncate UnlinkatFlags.Known at *
  rw [h]

lemma deSerProtFlags {f : ProtFlags} (h : ProtFlags.Known f) (rest : List Nat) :
    ProtFlags.deserialize (ProtFlags.serialize f ++ rest) = .ok f rest := by
  unfold ProtFlags.deserialize ProtFlags.serialize
  rw [deU8_ser]
  simp only [DeRes.bind]
  unfold ProtFlags.from_bits_truncate ProtFlags.Known at *
  rw [h]

lemma deSerMmapFlags {f : MmapFlags} (h : MmapFlags.Known f) (rest : List Nat) :
    MmapFlags.deserialize (MmapFlags.serialize f ++ rest) = .ok f rest := by
  have hle : f.bits ≤ MmapFlags.allBits := by
    rw [← h]
    exact Nat.and_le_right
  have hlt : f.bits < 2 ^ 32 := lt_of_le_of_lt hle (by decide)
  unfold MmapFlags.deserialize MmapFlags.serialize
  rw [deU32_ser hlt]
  simp only [DeRes.bind]
  unfold MmapFlags.from_bits_truncate MmapFlags.Known at *
  rw [h]
lemma roundtripOpenat {c : Openat} (h : Openat.Valid c) (rest : List Nat) :
    Openat.from_bytes (Openat.to_bytes c ++ rest) = .ok c rest := by
  obtain ⟨h1, ⟨h2u, h2l⟩, h3, h4⟩ := h
  unfold Openat.from_bytes Openat.to_bytes
  simp only [List.append_assoc]
  rw [deI64_ser h1]
  simp only [DeRes.bind]
  rw [dePath_ser h2u h2l]
  simp only [DeRes.bind]
  rw [deSerOpenFlags h3]
  simp only [DeRes.bind]
  rw [deSerFileMode h4]

lemma roundtripClose {c : Close} (h : Close.Valid c) (rest : List Nat) :
    Close.from_bytes (Close.to_bytes c ++ rest) = .ok c rest := by
  unfold Close.from_bytes Close.to_bytes
  rw [deI64_ser h]
  rfl

lemma roundtripFstat {c : Fstat} (h : Fstat.Valid c) (rest : List Nat) :
    Fstat.from_bytes (Fstat.to_bytes c ++ rest) = .ok c rest := by
  unfold Fstat.from_bytes Fstat.to_bytes
  rw [deI64_ser h]
  rfl

lemma roundtripGetdents {c : Getdents} (h : Getdents.Valid c) (rest : List Nat) :
    Getdents.from_bytes (Getdents.to_bytes c ++ rest) = .ok c rest := by
  obtain ⟨h1, h2⟩ := h
  unfold Getdents.from_bytes Getdents.to_bytes
  simp only [List.append_assoc]
  rw [deI64_ser h1]
  simp only [DeRes.bind]
  rw [deU64_ser h2]

lemma roundtripLinkat {c : Linkat} (h : Linkat.Valid c) (rest : List Nat) :
    Linkat.from_bytes (Linkat.to_bytes c ++ rest) = .ok c rest := by
  obtain ⟨h1, ⟨h2u, h2l⟩, h3, ⟨h4u, h4l⟩⟩ := h
  unfold Linkat.from_bytes Linkat.to_bytes
  simp only [List.append_assoc]
  rw [deI64_ser h1]
  simp only [DeRes.bind]
  rw [dePath_ser h2u h2l]
  simp only [DeRes.bind]
  rw [deI64_ser h3]
  simp only [DeRes.bind]
  rw [dePath_ser h4u h4l]

lemma roundtripUnlinkat {c : Unlinkat} (h : Unlinkat.Valid c) (rest : List Nat) :
    Unlinkat.from_bytes (Unlinkat.to_bytes c ++ rest) = .ok c rest := by
  obtain ⟨h1, ⟨h2u, h2l⟩, h3⟩ := h
  unfold Unlinkat.from_bytes Unlinkat.to_bytes
  simp only [List.append_assoc]
  rw [deI64_ser h1]
  simp only [DeRes.bind]
  rw [dePath_ser h2u h2l]
  simp only [DeRes.bind]
  rw [deSerUnlinkatFlags h3]

lemma roundtripMkdirat {c : Mkdirat} (h : Mkdirat.Valid c) (rest : List Nat) :
    Mkdirat.from_bytes (Mkdirat.to_bytes c ++ rest) = .ok c rest := by
  obtain ⟨h1, ⟨h2u, h2l⟩, h3⟩ := h
  unfold Mkdirat.from_bytes Mkdirat.to_bytes
  simp only [List.append_assoc]
  rw [deI64_ser h1]
  simp only [DeRes.bind]
  rw [dePath_ser h2u h2l]
  simp only [DeRes.bind]
  rw [deSerFileMode h3]

lemma roundtripGetcwd {c : Getcwd} (rest : List Nat) :
    Getcwd.from_bytes (Getcwd.to_bytes c ++ rest) = .ok c rest := rfl

lemma roundtripDup {c : Dup} (h : Dup.Valid c) (rest : List Nat) :
    Dup.from_bytes (Dup.to_bytes c ++ rest) = .ok c rest := by
  unfold Dup.from_bytes Dup.to_bytes
  rw [deI64_ser h]
  rfl

lemma roundtripChdir {c : Chdir} (h : Chdir.Valid c) (rest : List Nat) :
    Chdir.from_bytes (Chdir.to_bytes c ++ rest) = .ok c rest := by
  obtain ⟨hu, hl⟩ := h
  unfold Chdir.from_bytes Chdir.to_bytes
  rw [dePath_ser hu hl]
  rfl

lemma roundtripBrk {c : Brk} (h : Brk.Valid c) (rest : List Nat) :
    Brk.from_bytes (Brk.to_bytes c ++ rest) = .ok c rest := by
  unfold Brk.from_bytes Brk.to_bytes
  rw [deU64_ser h]
  rfl

lemma roundtripSbrk {c : Sbrk} (h : Sbrk.Valid c) (rest : List Nat) :
    Sbrk.from_bytes (Sbrk.to_bytes c ++ rest) = .ok c rest := by
  unfold Sbrk.from_bytes Sbrk.to_bytes
  rw [deI64_ser h]
  rfl

lemma roundtripMmap {c : Mmap} (h : Mmap.Valid c) (rest : List Nat) :
    Mmap.from_bytes (Mmap.to_bytes c ++ rest) = .ok c rest := by
  obtain ⟨h1, h2, h3, h4⟩ := h
  unfold Mmap.from_bytes Mmap.to_bytes
  simp only [List.append_assoc]
  rw [deU64_ser h1]
  simp only [DeRes.bind]
  rw [deU64_ser h2]
  simp only [DeRes.bind]
  rw [deSerProtFlags h3]
  simp only [DeRes.bind]
  rw [deSerMmapFlags h4]

lemma roundtripMunmap {c : Munmap} (h : Munmap.Valid c) (rest : List Nat) :
    Munmap.from_bytes (Munmap.to_bytes c ++ rest) = .ok c rest := by
  obtain ⟨h1, h2⟩ := h
  unfold Munmap.from_bytes Munmap.to_bytes
  simp only [List.append_assoc]
  rw [deU64_ser h1]
  simp only [DeRes.bind]
  rw [deU64_ser h2]

lemma roundtripMprotect {c : Mprotect} (h : Mprotect.Valid c) (rest : List Nat) :
    Mprotect.from_bytes (Mprotect.to_bytes c ++ rest) = .ok c rest := by
  obtain ⟨h1, h2, h3⟩ := h
  unfold Mprotect.from_bytes Mprotect.to_bytes
  simp only [List.append_assoc]
  rw [deU64_ser h1]
  simp only [DeRes.bind]
  rw [deU64_ser h2]
  simp only [DeRes.bind]
  rw [deSerProtFlags h3]

lemma and_61440 (m : Nat) : m &&& 61440 = 4096 * (m / 4096 % 16) := by
  apply Nat.eq_of_testBit_eq
  intro j
  rw [show (4096 : Nat) * (m / 4096 % 16) = 2 ^ 12 * (m / 4096 % 16) from rfl]
  rw [Nat.testBit_mul_pow_two]
  simp only [Nat.testBit_and]
  rcases Nat.lt_or_ge j 12 with hj | hj
  · have h61 : (61440 : Nat).testBit j = false := by
      interval_cases j <;> decide
    simp [h61, hj, Nat.not_le_of_lt hj]
  · rcases Nat.lt_or_ge j 16 with hj2 | hj2
    · have hm : (m / 4096 % 16).testBit (j - 12) = (m / 4096).testBit (j - 12) := by
        rw [show (16 : Nat) = 2 ^ 4 from rfl, Nat.testBit_mod_two_pow]
        simp [show j - 12 < 4 by omega]
      have hdiv : (m / 4096).testBit (j - 12) = m.testBit j := by
        rw [show (4096 : Nat) = 2 ^ 12 from rfl, ← Nat.shiftRight_eq_div_pow,
          Nat.testBit_shiftRight, show 12 + (j - 12) = j by omega]
      have h61 : (61440 : Nat).testBit j = true := by
        interval_cases j <;> decide
      simp [h61, hm, hdiv, hj]
    · have h61 : (61440 : Nat).testBit j = false :=
        Nat.testBit_lt_two_pow (by
          calc (61440 : Nat) < 2 ^ 16 := by norm_num
            _ ≤ 2 ^ j := Nat.pow_le_pow_right (by norm_num) hj2)
      have hm : (m / 4096 % 16).testBit (j - 12) = false :=
        Nat.testBit_lt_two_pow (by
          calc m / 4096 % 16 < 16 := Nat.mod_lt _ (by norm_num)
            _ = 2 ^ 4 := rfl
            _ ≤ 2 ^ (j - 12) := Nat.pow_le_pow_right (by norm_num) (by omega))
      simp [h61, hm]
/-- C4: the two FileKind classification paths agree: for every mode, the stat
classification equals the dirent classification of the type tag derived from
the mode's type bits, and every unrecognized tag or masked pattern maps to
`Unknown` in both, never to an error. -/
theorem stat_dirent_kind_agree :
    (∀ (s : LibcStat) (d : LibcDirent), d.type_ = (s.mode &&& 0o170000) >>> 12 →
      LibcStat.kind s = LibcDirent.kind d) ∧
    (∀ d : LibcDirent, d.type_ ∉ ([1, 2, 4, 6, 8, 10, 12] : List Nat) →
      LibcDirent.kind d = FileKind.Unknown) ∧
    (∀ s : LibcStat, s.mode &&& 0o170000 ∉
          ([0o010000, 0o020000, 0o040000, 0o060000, 0o100000, 0o120000, 0o140000] : List Nat) →
      LibcStat.kind s = FileKind.Unknown) := by
  refine ⟨?_, ?_, ?_⟩
  · intro s d ht
    unfold LibcStat.kind LibcDirent.kind
    rw [ht, and_61440]
    have hk : s.mode / 4096 % 16 < 16 := Nat.mod_lt _ (by norm_num)
    generalize s.mode / 4096 % 16 = k at hk ⊢
    interval_cases k <;> rfl
  · intro d h
    unfold LibcDirent.kind
    split <;> simp_all
  · intro s h
    unfold LibcStat.kind
    split <;> simp_all
set_option maxRecDepth 65536

/-- Witness for C4 at a directory (mode `0o040755`, tag `4`), an unknown tag
`3`, and an unknown masked pattern `0o030000`. -/
theorem stat_dirent_kind_agree_witness :
    LibcStat.kind ⟨0, 0, 0o040755, 1, 0, 0, 0, 0, 0, 0, 0, 0, 0, 0, 0, 0, 0, 0⟩ =
      LibcDirent.kind ⟨0, 0, 0, 4, []⟩ ∧
    LibcDirent.kind ⟨0, 0, 0, 3, []⟩ = FileKind.Unknown ∧
    LibcStat.kind ⟨0, 0, 0o030000, 1, 0, 0, 0, 0, 0, 0, 0, 0, 0, 0, 0, 0, 0, 0⟩ =
      FileKind.Unknown :=
  ⟨stat_dirent_kind_agree.1 _ _ (by decide),
   stat_dirent_kind_agree.2.1 _ (by decide),
   stat_dirent_kind_agree.2.2 _ (by decide)⟩

/-- C3: `LibcDirent::name` returns exactly the first `reclen - MIN_SIZE` bytes
of the name buffer: with `reclen = MIN_SIZE + 5` and a 5-byte name followed by
251 arbitrary bytes it returns exactly those 5 bytes, and its result never
depends on buffer content past the computed length. -/
theorem dirent_name_slicing :
    (∀ (bs tail : List Nat) (ino off t : Nat), bs.length = 5 → tail.length = 251 →
      LibcDirent.nameBytes ⟨ino, off, LibcDirent.MIN_SIZE + 5, t, bs ++ tail⟩ = some bs) ∧
    (∀ d : LibcDirent, LibcDirent.MIN_SIZE ≤ d.reclen → d.reclen - LibcDirent.MIN_SIZE ≤ 256 →
      LibcDirent.nameBytes d = some (d.name.take (d.reclen - LibcDirent.MIN_SIZE))) ∧
    (∀ d₁ d₂ : LibcDirent, d₁.reclen = d₂.reclen →
      d₁.name.take (d₁.reclen - LibcDirent.MIN_SIZE) =
        d₂.name.take (d₂.reclen - LibcDirent.MIN_SIZE) →
      LibcDirent.nameBytes d₁ = LibcDirent.nameBytes d₂) := by
  refine ⟨?_, ?_, ?_⟩
  · intro bs tail ino off t hbs htail
    unfold LibcDirent.nameBytes
    dsimp only
    rw [if_pos (by decide), show LibcDirent.MIN_SIZE + 5 - LibcDirent.MIN_SIZE = 5 from rfl,
      List.take_left' hbs]
  · intro d h1 h2
    unfold LibcDirent.nameBytes
    rw [if_pos ⟨h1, h2⟩]
  · intro d1 d2 h12 hn
    unfold LibcDirent.nameBytes
    rw [h12] at hn ⊢
    rw [hn]

/-- Witness for C3 with name `hello`, trailing buffer of 251 zeros, and two
dirents agreeing on `reclen` and the sliced prefix. -/
theorem dirent_name_slicing_witness :
    LibcDirent.nameBytes ⟨1, 2, LibcDirent.MIN_SIZE + 5, 8,
        [104, 101, 108, 108, 111] ++ List.replicate 251 0⟩ =
      some [104, 101, 108, 108, 111] ∧
    LibcDirent.nameBytes ⟨0, 0, 24, 0, List.replicate 256 7⟩ =
      some ((List.replicate 256 7).take 5) ∧
    LibcDirent.nameBytes ⟨0, 0, 24, 0, List.replicate 256 9⟩ =
      LibcDirent.nameBytes ⟨3, 4, 24, 5, 9 :: 9 :: 9 :: 9 :: 9 :: List.replicate 251 1⟩ :=
  ⟨dirent_name_slicing.1 _ _ 1 2 8 (by decide) (by simp),
   dirent_name_slicing.2.1 _ (by decide) (by decide),
   dirent_name_slicing.2.2 _ _ (by decide) (by decide)⟩

/-- C10: `LibcDirent::name` is safe exactly when
`MIN_SIZE ≤ reclen ≤ MIN_SIZE + 256`: under that precondition the slice is in
bounds and a value is returned; below `MIN_SIZE` the subtraction underflows
and above `MIN_SIZE + 256` the slice exceeds the 256-byte buffer, so the
embedded function returns no value (a Rust panic). -/
theorem dirent_name_safety :
    (∀ d : LibcDirent, LibcDirent.MIN_SIZE ≤ d.reclen →
      d.reclen ≤ LibcDirent.MIN_SIZE + 256 → (LibcDirent.nameBytes d).isSome = true) ∧
    (∀ d : LibcDirent, d.reclen < LibcDirent.MIN_SIZE → LibcDirent.nameBytes d = none) ∧
    (∀ d : LibcDirent, LibcDirent.MIN_SIZE + 256 < d.reclen → LibcDirent.nameBytes d = none) := by
  refine ⟨?_, ?_, ?_⟩
  · intro d h1 h2
    unfold LibcDirent.nameBytes
    rw [if_pos ⟨h1, by omega⟩]
    rfl
  · intro d h
    unfold LibcDirent.nameBytes
    rw [if_neg (by omega)]
  · intro d h
    unfold LibcDirent.nameBytes
    rw [if_neg (by omega)]

/-- Witness for C10 at `reclen` values 275 (upper boundary), 18 (underflow)
and 276 (slice out of bounds). -/
theorem dirent_name_safety_witness :
    (LibcDirent.nameBytes ⟨0, 0, 275, 0, List.replicate 256 0⟩).isSome = true ∧
    LibcDirent.nameBytes ⟨0, 0, 18, 0, List.replicate 256 0⟩ = none ∧
    LibcDirent.nameBytes ⟨0, 0, 276, 0, List.replicate 256 0⟩ = none :=
  ⟨dirent_name_safety.1 _ (by decide) (by decide),
   dirent_name_safety.2.1 _ (by decide),
   dirent_name_safety.2.2 _ (by decide)⟩

/-- C7 counterexample: the single-entry buffer constant is strictly smaller
than `MAX_SIZE`, so it is not `≥ MAX_SIZE` as the claim asserts. -/
theorem one_dirent_buf_size_lt_max_size :
    LibcDirent.ONE_DIRENT_BUF_SIZE < LibcDirent.MAX_SIZE := by decide

/-- C7 amended: `ONE_DIRENT_BUF_SIZE` equals `MIN_SIZE * 2 = 38`; it is
smaller than `MAX_SIZE = 275`, hence it does not guarantee room for a
complete entry of arbitrary name length. -/
theorem one_dirent_buf_size_value :
    LibcDirent.ONE_DIRENT_BUF_SIZE = LibcDirent.MIN_SIZE * 2 ∧
    LibcDirent.ONE_DIRENT_BUF_SIZE = 38 ∧
    LibcDirent.MAX_SIZE = 275 ∧
    LibcDirent.ONE_DIRENT_BUF_SIZE + 237 = LibcDirent.MAX_SIZE := by decide

/-- C8: the fifteen command ids are pairwise distinct except that `Brk` and
`Sbrk` share the identifier 214. -/
theorem command_ids_distinct_except_brk_sbrk :
    ([Openat.ID, Close.ID, Fstat.ID, Getdents.ID, Linkat.ID, Unlinkat.ID, Mkdirat.ID,
      Getcwd.ID, Dup.ID, Chdir.ID, Brk.ID, Mmap.ID, Munmap.ID, Mprotect.ID] : List Nat).Nodup ∧
    Sbrk.ID = Brk.ID ∧ Brk.ID = 214 := by decide

/-- C9: constructing a fixed-capacity path from exactly 256 units succeeds
and stores the bytes verbatim; from exactly 257 units it fails with a
capacity error rather than truncating. -/
theorem path_capacity_boundary :
    (∀ s : List Nat, s.length = MAX_PATH_LEN → heaplessFromStr MAX_PATH_LEN s = some s) ∧
    (∀ s : List Nat, s.length = MAX_PATH_LEN + 1 → heaplessFromStr MAX_PATH_LEN s = none) := by
  constructor
  · intro s h
    unfold heaplessFromStr
    rw [if_pos (by omega)]
  · intro s h
    unfold heaplessFromStr
    rw [if_neg (by omega)]

/-- Witness for C9 at 256 and 257 copies of the byte `a`. -/
theorem path_capacity_boundary_witness :
    heaplessFromStr MAX_PATH_LEN (List.replicate 256 97) = some (List.replicate 256 97) ∧
    heaplessFromStr MAX_PATH_LEN (List.replicate 257 97) = none :=
  ⟨path_capacity_boundary.1 _ (by simp [MAX_PATH_LEN]),
   path_capacity_boundary.2 _ (by simp [MAX_PATH_LEN])⟩
/-- C6: the leading identifier is read least-significant-byte first, so
prepending `id_to_bytes id` to any buffer and reading it back yields exactly
`(id, rest)`. -/
theorem id_bytes_roundtrip (id : Nat) (rest : List Nat) (h : UsizeRange id) :
    id_from_bytes (id_to_bytes id ++ rest) = some (id, rest) := by
  have hr : id_to_bytes id =
      [id / 1 % 256, id / 256 % 256, id / 65536 % 256, id / 16777216 % 256,
       id / 4294967296 % 256, id / 1099511627776 % 256, id / 281474976710656 % 256,
       id / 72057594037927936 % 256] := rfl
  rw [hr]
  unfold id_from_bytes
  rw [if_neg (by simp only [List.length_append, List.length_cons, List.length_nil]; omega)]
  rw [List.take_left' (by rfl), List.drop_left' (by rfl)]
  simp only [List.foldr]
  simp only [Option.some.injEq, Prod.mk.injEq]
  refine ⟨?_, trivial⟩
  unfold UsizeRange at h
  omega

/-- Witness for C6 at id 214 and remainder `[1, 2]`. -/
theorem id_bytes_roundtrip_witness :
    id_from_bytes (id_to_bytes 214 ++ [1, 2]) = some (214, [1, 2]) :=
  id_bytes_roundtrip 214 [1, 2] (by decide)
/-- C2 (code bug evidence): `Chdir::from_bytes` on a buffer whose encoded
path declares 257 bytes panics through `String::from_str(..).unwrap()` in
`Path::deserialize` instead of returning `None`; a buffer shorter than the
declared length yields a clean `None`, and the 256-byte boundary decodes
successfully. -/
theorem chdir_from_bytes_panics_on_oversized_path :
    Chdir.from_bytes (129 :: 2 :: List.replicate 257 97) = .panic ∧
    Chdir.from_bytes (129 :: 2 :: List.replicate 256 97) = .err ∧
    Chdir.from_bytes (128 :: 2 :: List.replicate 256 97) =
      .ok ⟨List.replicate 256 97⟩ [] := by
  refine ⟨by decide, by decide, by decide⟩

/-- C5: for every flag family, decoding a raw integer masks it to the
family's known bits (unknown bits dropped, never an error), and encoding is
the identity on the stored bit pattern. -/
theorem flags_mask_roundtrip :
    (∀ raw rest, raw < 2 ^ 32 →
      OpenFlags.deserialize (serU32 raw ++ rest) = .ok ⟨raw &&& OpenFlags.allBits⟩ rest) ∧
    (∀ f : OpenFlags, OpenFlags.serialize f = serU32 f.bits) ∧
    (∀ raw rest, raw < 2 ^ 32 →
      FileMode.deserialize (serU32 raw ++ rest) = .ok ⟨raw &&& FileMode.allBits⟩ rest) ∧
    (∀ f : FileMode, FileMode.serialize f = serU32 f.bits) ∧
    (∀ raw rest, raw < 2 ^ 32 →
      UnlinkatFlags.deserialize (serU32 raw ++ rest) = .ok ⟨raw &&& UnlinkatFlags.allBits⟩ rest) ∧
    (∀ f : UnlinkatFlags, UnlinkatFlags.serialize f = serU32 f.bits) ∧
    (∀ raw rest, raw < 2 ^ 8 →
      ProtFlags.deserialize (serU8 raw ++ rest) = .ok ⟨raw &&& ProtFlags.allBits⟩ rest) ∧
    (∀ f : ProtFlags, ProtFlags.serialize f = serU8 f.bits) ∧
    (∀ raw rest, raw < 2 ^ 32 →
      MmapFlags.deserialize (serU32 raw ++ rest) = .ok ⟨raw &&& MmapFlags.allBits⟩ rest) ∧
    (∀ f : MmapFlags, MmapFlags.serialize f = serU32 f.bits) := by
  refine ⟨?_, fun f => rfl, ?_, fun f => rfl, ?_, fun f => rfl, ?_, fun f => rfl, ?_, fun f => rfl⟩
  · intro raw rest h
    unfold OpenFlags.deserialize
    rw [deU32_ser h]
    rfl
  · intro raw rest h
    unfold FileMode.deserialize
    rw [deU32_ser h]
    rfl
  · intro raw rest h
    unfold UnlinkatFlags.deserialize
    rw [deU32_ser h]
    rfl
  · intro raw rest _
    unfold ProtFlags.deserialize
    rw [deU8_ser]
    rfl
  · intro raw rest h
    unfold MmapFlags.deserialize
    rw [deU32_ser h]
    rfl

/-- Witness for C5 at all-bits-set raw inputs for each family. -/
theorem flags_mask_roundtrip_witness :
    OpenFlags.deserialize (serU32 4294967295 ++ []) =
      .ok ⟨4294967295 &&& OpenFlags.allBits⟩ [] ∧
    FileMode.deserialize (serU32 4294967295 ++ []) =
      .ok ⟨4294967295 &&& FileMode.allBits⟩ [] ∧
    UnlinkatFlags.deserialize (serU32 4294967295 ++ []) =
      .ok ⟨4294967295 &&& UnlinkatFlags.allBits⟩ [] ∧
    ProtFlags.deserialize (serU8 255 ++ []) = .ok ⟨255 &&& ProtFlags.allBits⟩ [] ∧
    MmapFlags.deserialize (serU32 4294967295 ++ []) =
      .ok ⟨4294967295 &&& MmapFlags.allBits⟩ [] :=
  ⟨flags_mask_roundtrip.1 _ _ (by norm_num),
   flags_mask_roundtrip.2.2.1 _ _ (by norm_num),
   flags_mask_roundtrip.2.2.2.2.1 _ _ (by norm_num),
   flags_mask_roundtrip.2.2.2.2.2.2.1 _ _ (by norm_num),
   flags_mask_roundtrip.2.2.2.2.2.2.2.2.1 _ _ (by norm_num)⟩
/-- C1: for every command type, decoding the encoding of a record whose
fields are within their valid domains succeeds and returns the original
record with an empty remainder. -/
theorem command_roundtrip :
    (∀ c : Openat, Openat.Valid c → Openat.from_bytes (Openat.to_bytes c) = .ok c []) ∧
    (∀ c : Close, Close.Valid c → Close.from_bytes (Close.to_bytes c) = .ok c []) ∧
    (∀ c : Fstat, Fstat.Valid c → Fstat.from_bytes (Fstat.to_bytes c) = .ok c []) ∧
    (∀ c : Getdents, Getdents.Valid c → Getdents.from_bytes (Getdents.to_bytes c) = .ok c []) ∧
    (∀ c : Linkat, Linkat.Valid c → Linkat.from_bytes (Linkat.to_bytes c) = .ok c []) ∧
    (∀ c : Unlinkat, Unlinkat.Valid c → Unlinkat.from_bytes (Unlinkat.to_bytes c) = .ok c []) ∧
    (∀ c : Mkdirat, Mkdirat.Valid c → Mkdirat.from_bytes (Mkdirat.to_bytes c) = .ok c []) ∧
    (∀ c : Getcwd, Getcwd.Valid c → Getcwd.from_bytes (Getcwd.to_bytes c) = .ok c []) ∧
    (∀ c : Dup, Dup.Valid c → Dup.from_bytes (Dup.to_bytes c) = .ok c []) ∧
    (∀ c : Chdir, Chdir.Valid c → Chdir.from_bytes (Chdir.to_bytes c) = .ok c []) ∧
    (∀ c : Brk, Brk.Valid c → Brk.from_bytes (Brk.to_bytes c) = .ok c []) ∧
    (∀ c : Sbrk, Sbrk.Valid c → Sbrk.from_bytes (Sbrk.to_bytes c) = .ok c []) ∧
    (∀ c : Mmap, Mmap.Valid c → Mmap.from_bytes (Mmap.to_bytes c) = .ok c []) ∧
    (∀ c : Munmap, Munmap.Valid c → Munmap.from_bytes (Munmap.to_bytes c) = .ok c []) ∧
    (∀ c : Mprotect, Mprotect.Valid c → Mprotect.from_bytes (Mprotect.to_bytes c) = .ok c []) := by
  refine ⟨fun c h => ?_, fun c h => ?_, fun c h => ?_, fun c h => ?_, fun c h => ?_,
    fun c h => ?_, fun c h => ?_, fun c h => ?_, fun c h => ?_, fun c h => ?_,
    fun c h => ?_, fun c h => ?_, fun c h => ?_, fun c h => ?_, fun c h => ?_⟩
  · simpa using roundtripOpenat h []
  · simpa using roundtripClose h []
  · simpa using roundtripFstat h []
  · simpa using roundtripGetdents h []
  · simpa using roundtripLinkat h []
  · simpa using roundtripUnlinkat h []
  · simpa using roundtripMkdirat h []
  · simpa using roundtripGetcwd (c := c) []
  · simpa using roundtripDup h []
  · simpa using roundtripChdir h []
  · simpa using roundtripBrk h []
  · simpa using roundtripSbrk h []
  · simpa using roundtripMmap h []
  · simpa using roundtripMunmap h []
  · simpa using roundtripMprotect h []

/-- Witness for C1: one concrete record per command type, including a
maximum-length path (`Chdir`), all-known-bits-set flags (`Mmap`) and
all-bits-clear flags (`Mprotect`). -/
theorem command_roundtrip_witness :
    Openat.from_bytes (Openat.to_bytes ⟨3, [47, 116, 109, 112, 47, 120], ⟨65⟩, ⟨384⟩⟩) =
      .ok ⟨3, [47, 116, 109, 112, 47, 120], ⟨65⟩, ⟨384⟩⟩ [] ∧
    Close.from_bytes (Close.to_bytes ⟨-1⟩) = .ok ⟨-1⟩ [] ∧
    Fstat.from_bytes (Fstat.to_bytes ⟨3⟩) = .ok ⟨3⟩ [] ∧
    Getdents.from_bytes (Getdents.to_bytes ⟨3, 10⟩) = .ok ⟨3, 10⟩ [] ∧
    Linkat.from_bytes (Linkat.to_bytes ⟨3, [97], 4, [98]⟩) = .ok ⟨3, [97], 4, [98]⟩ [] ∧
    Unlinkat.from_bytes (Unlinkat.to_bytes ⟨3, [97], ⟨512⟩⟩) = .ok ⟨3, [97], ⟨512⟩⟩ [] ∧
    Mkdirat.from_bytes (Mkdirat.to_bytes ⟨3, [100], ⟨493⟩⟩) = .ok ⟨3, [100], ⟨493⟩⟩ [] ∧
    Getcwd.from_bytes (Getcwd.to_bytes ⟨⟩) = .ok ⟨⟩ [] ∧
    Dup.from_bytes (Dup.to_bytes ⟨5⟩) = .ok ⟨5⟩ [] ∧
    Chdir.from_bytes (Chdir.to_bytes ⟨List.replicate 256 97⟩) =
      .ok ⟨List.replicate 256 97⟩ [] ∧
    Brk.from_bytes (Brk.to_bytes ⟨4096⟩) = .ok ⟨4096⟩ [] ∧
    Sbrk.from_bytes (Sbrk.to_bytes ⟨-4096⟩) = .ok ⟨-4096⟩ [] ∧
    Mmap.from_bytes (Mmap.to_bytes ⟨0, 4096, ⟨7⟩, ⟨19⟩⟩) = .ok ⟨0, 4096, ⟨7⟩, ⟨19⟩⟩ [] ∧
    Munmap.from_bytes (Munmap.to_bytes ⟨0, 4096⟩) = .ok ⟨0, 4096⟩ [] ∧
    Mprotect.from_bytes (Mprotect.to_bytes ⟨0, 4096, ⟨0⟩⟩) = .ok ⟨0, 4096, ⟨0⟩⟩ [] :=
  ⟨command_roundtrip.1 _ (by decide),
   command_roundtrip.2.1 _ (by decide),
   command_roundtrip.2.2.1 _ (by decide),
   command_roundtrip.2.2.2.1 _ (by decide),
   command_roundtrip.2.2.2.2.1 _ (by decide),
   command_roundtrip.2.2.2.2.2.1 _ (by decide),
   command_roundtrip.2.2.2.2.2.2.1 _ (by decide),
   command_roundtrip.2.2.2.2.2.2.2.1 _ (by decide),
   command_roundtrip.2.2.2.2.2.2.2.2.1 _ (by decide),
   command_roundtrip.2.2.2.2.2.2.2.2.2.1 _ (by decide),
   command_roundtrip.2.2.2.2.2.2.2.2.2.2.1 _ (by decide),
   command_roundtrip.2.2.2.2.2.2.2.2.2.2.2.1 _ (by decide),
   command_roundtrip.2.2.2.2.2.2.2.2.2.2.2.2.1 _ (by decide),
   command_roundtrip.2.2.2.2.2.2.2.2.2.2.2.2.2.1 _ (by decide),
   command_roundtrip.2.2.2.2.2.2.2.2.2.2.2.2.2.2 _ (by decide)⟩
end KmCommand
